import Mathlib

/-!
Verification development for the OSD-XMB artwork resizer (`main.py`).

The program walks a directory tree, finds the files named `ICON0.png` and
`PIC1.png`, and rewrites each in place after resizing it with one of two
strategies: letterbox fit (`fit_image`) or center-crop fill (`fill_image`).

The imaging library (Pillow) is an external collaborator.  Its operations
(mode conversion, resampling, the blend used by alpha-mask paste, PNG
decode/encode) are kept abstract in a `PILOps` record; theorems only assume
their documented contracts, stated as explicit predicates below.  Purely
geometric library operations whose behavior the program relies on pixel by
pixel (`Image.new`, `Image.paste` region selection, `Image.crop`) are
modelled directly, following Pillow's documented semantics.

Python arithmetic is modelled exactly: `/` on ints is rational division,
`int(...)` truncates toward zero (`Int.tdiv` of numerator by denominator),
and `//` on ints is floor division (`Int.fdiv`).
-/

namespace ArtResizer

/-- A pixel: four unsigned channel values (red, green, blue, alpha). -/
structure RGBA where
  r : ℕ
  g : ℕ
  b : ℕ
  a : ℕ
deriving DecidableEq

/-- An in-memory image: dimensions, a Pillow mode string, and a pixel
function giving the pixel at column `i`, row `j` (values at out-of-range
coordinates are irrelevant). -/
structure Img where
  width : ℕ
  height : ℕ
  mode : String
  pix : ℕ → ℕ → RGBA

/-- The size `(width, height)` of an image, as in Pillow's `Image.size`. -/
def Img.size (im : Img) : ℕ × ℕ := (im.width, im.height)

/-- Python `int(q)` for the rational value `q`: truncation toward zero. -/
def pyInt (q : ℚ) : ℤ := q.num.tdiv q.den

/-- The external imaging library surface used by `main.py`: `convert("RGBA")`,
`resize(..., LANCZOS)`, the per-pixel blend performed by `paste` with an
alpha mask, `Image.open` (decode) and `Image.save(..., "PNG")` (encode). -/
structure PILOps where
  convert : Img → Img
  resample : Img → ℕ → ℕ → Img
  blend : RGBA → RGBA → RGBA
  decode : List ℕ → Except String Img
  encode : Img → Except String (List ℕ)

/-- Contract of `convert("RGBA")`: dimensions are preserved and the result
is in RGBA mode. -/
def PILOps.ConvertContract (E : PILOps) : Prop :=
  ∀ im : Img, (E.convert im).width = im.width ∧ (E.convert im).height = im.height ∧
    (E.convert im).mode = "RGBA"

/-- Contract of `resize((w, h), LANCZOS)`: the result has exactly the
requested dimensions and keeps the mode of its input. -/
def PILOps.ResampleContract (E : PILOps) : Prop :=
  ∀ (im : Img) (w h : ℕ), (E.resample im w h).width = w ∧ (E.resample im w h).height = h ∧
    (E.resample im w h).mode = im.mode

/-- Pillow fast path of `resize`: resizing an image to its own size returns
a copy of the image itself. -/
def PILOps.ResampleSameContract (E : PILOps) : Prop :=
  ∀ im : Img, E.resample im im.width im.height = im

/-- The source's `if img.mode != "RGBA": img = img.convert("RGBA")`. -/
def toRGBA (E : PILOps) (img : Img) : Img :=
  if img.mode ≠ "RGBA" then E.convert img else img

/-- `Image.new(mode, size, color)`: a constant canvas. -/
def Img.new (mode : String) (size : ℕ × ℕ) (color : RGBA) : Img :=
  { width := size.1, height := size.2, mode := mode, pix := fun _ _ => color }

/-- `canvas.paste(im, (x, y), mask)` with `mask = im` itself, as in the
source: inside the pasted rectangle each canvas pixel is blended with the
corresponding pixel of `im` (the blend uses the alpha of `im` as mask);
outside the rectangle the canvas is untouched. -/
def Img.paste (canvas im : Img) (x y : ℤ) (blend : RGBA → RGBA → RGBA) : Img :=
  { canvas with pix := fun i j =>
      (if x ≤ (i : ℤ) ∧ (i : ℤ) < x + im.width ∧ y ≤ (j : ℤ) ∧ (j : ℤ) < y + im.height then
        blend (im.pix ((i : ℤ) - x).toNat ((j : ℤ) - y).toNat) (canvas.pix i j)
      else canvas.pix i j) }

/-- `im.crop((left, top, right, bottom))`: the result always has the box's
dimensions; coordinates inside the source copy the source pixel, and any
part of the box outside the source is filled with zeros. -/
def Img.crop (im : Img) (left top right bottom : ℤ) : Img where
  width := (right - left).toNat
  height := (bottom - top).toNat
  mode := im.mode
  pix := fun i j =>
    if 0 ≤ left + (i : ℤ) ∧ left + (i : ℤ) < im.width ∧
        0 ≤ top + (j : ℤ) ∧ top + (j : ℤ) < im.height then
      im.pix (left + (i : ℤ)).toNat (top + (j : ℤ)).toNat
    else ⟨0, 0, 0, 0⟩

/-- `scale = min(target_w / img_w, target_h / img_h)` from `fit_image`. -/
def fitScale (img_w img_h target_w target_h : ℕ) : ℚ :=
  min ((target_w : ℚ) / img_w) ((target_h : ℚ) / img_h)

/-- `new_w = int(img_w * scale)` from `fit_image`. -/
def fitNewW (img_w img_h target_w target_h : ℕ) : ℕ :=
  (pyInt ((img_w : ℚ) * fitScale img_w img_h target_w target_h)).toNat

/-- `new_h = int(img_h * scale)` from `fit_image`. -/
def fitNewH (img_w img_h target_w target_h : ℕ) : ℕ :=
  (pyInt ((img_h : ℚ) * fitScale img_w img_h target_w target_h)).toNat

/-- `x = (target_w - new_w) // 2` from `fit_image` (and its `y` analogue). -/
def fitOffset (target_w new_w : ℕ) : ℤ :=
  ((target_w : ℤ) - (new_w : ℤ)).fdiv 2

/-- `fit_image(img, target_size, background)`: convert to RGBA, scale to fit
inside the target while preserving aspect ratio, then paste centered onto a
background-colored canvas of the target size, using the resized image
itself as the paste mask. -/
def fit_image (E : PILOps) (img : Img) (target_size : ℕ × ℕ) (background : RGBA) : Img :=
  let img := toRGBA E img
  let target_w := target_size.1
  let target_h := target_size.2
  let new_w := fitNewW img.width img.height target_w target_h
  let new_h := fitNewH img.width img.height target_w target_h
  let resized := E.resample img new_w new_h
  let canvas := Img.new "RGBA" target_size background
  let x := fitOffset target_w new_w
  let y := fitOffset target_h new_h
  canvas.paste resized x y E.blend

/-- `scale = max(target_w / img_w, target_h / img_h)` from `fill_image`. -/
def fillScale (img_w img_h target_w target_h : ℕ) : ℚ :=
  max ((target_w : ℚ) / img_w) ((target_h : ℚ) / img_h)

/-- `new_w = int(img_w * scale)` from `fill_image`. -/
def fillNewW (img_w img_h target_w target_h : ℕ) : ℕ :=
  (pyInt ((img_w : ℚ) * fillScale img_w img_h target_w target_h)).toNat

/-- `new_h = int(img_h * scale)` from `fill_image`. -/
def fillNewH (img_w img_h target_w target_h : ℕ) : ℕ :=
  (pyInt ((img_h : ℚ) * fillScale img_w img_h target_w target_h)).toNat

/-- `left = (new_w - target_w) // 2` from `fill_image` (and its `top`
analogue). -/
def fillOffset (new_w target_w : ℕ) : ℤ :=
  ((new_w : ℤ) - (target_w : ℤ)).fdiv 2

/-- `fill_image(img, target_size)`: convert to RGBA, scale to cover the
target while preserving aspect ratio, then crop the center to the target
size. -/
def fill_image (E : PILOps) (img : Img) (target_size : ℕ × ℕ) : Img :=
  let img := toRGBA E img
  let target_w := target_size.1
  let target_h := target_size.2
  let new_w := fillNewW img.width img.height target_w target_h
  let new_h := fillNewH img.width img.height target_w target_h
  let resized := E.resample img new_w new_h
  let left := fillOffset new_w target_w
  let top := fillOffset new_h target_h
  let right := left + (target_w : ℤ)
  let bottom := top + (target_h : ℤ)
  resized.crop left top right bottom

/-- Per-filename configuration entry: target size and strategy tag. -/
structure FileConfig where
  size : ℕ × ℕ
  mode : String
deriving DecidableEq

/-- `TARGET_CONFIG`: the two known target filenames and their configs. -/
def TARGET_CONFIG : List (String × FileConfig) :=
  [("ICON0.png", ⟨(128, 128), "fit"⟩), ("PIC1.png", ⟨(640, 448), "fill"⟩)]

/-- `BACKGROUND_COLORS`: the fixed palette of background choices. -/
def BACKGROUND_COLORS : List (String × RGBA) :=
  [("transparent", ⟨0, 0, 0, 0⟩), ("black", ⟨0, 0, 0, 255⟩), ("white", ⟨255, 255, 255, 255⟩)]

/-- `os.path.join` for the paths the program builds. -/
def os_path_join (a b : String) : String := a ++ "/" ++ b

/-- The body of the `try` block of `process_file`: decode the file, apply
the transform selected by the strategy tag (an unknown tag raises
`ValueError`), and encode the result as PNG.  Any step may fail. -/
def process_file_body (E : PILOps) (content : List ℕ) (config : FileConfig)
    (background : RGBA) : Except String (List ℕ) := do
  let img ← E.decode content
  let new_img ←
    if config.mode = "fit" then pure (fit_image E img config.size background)
    else if config.mode = "fill" then pure (fill_image E img config.size)
    else Except.error ("Unknown mode: " ++ config.mode)
  E.encode new_img

/-- The error line printed by the `except` clause of `process_file`. -/
def errorLine (file_path e : String) : String :=
  "  Error processing " ++ file_path ++ ": " ++ e

/-- `process_file`: run the body and catch every failure, returning the
resulting file content together with the lines printed.  On failure the
error is logged with the file path and the run continues. -/
def process_file (E : PILOps) (file_path : String) (content : List ℕ)
    (config : FileConfig) (background : RGBA) : List ℕ × List String :=
  match process_file_body E content config background with
  | .ok out => (out, ["    -> saved (mode: " ++ config.mode ++ ")"])
  | .error e => (content, [errorLine file_path e])

mutual
/-- A directory tree: the files of the directory (name, byte content) and
its named subdirectories. -/
inductive FsTree where
  | node : List (String × List ℕ) → DirList → FsTree
/-- The subdirectories of a directory, as a name/tree list. -/
inductive DirList where
  | nil : DirList
  | cons : String → FsTree → DirList → DirList
end

/-- One iteration of the file loop of `process_art_folder`: a file whose
name is a `TARGET_CONFIG` key is handed to `process_file` with its config;
any other file is left as is. -/
def processEntry (E : PILOps) (background : RGBA) (current_dir : String)
    (f : String × List ℕ) : String × List ℕ :=
  match TARGET_CONFIG.lookup f.1 with
  | some config => (f.1, (process_file E (os_path_join current_dir f.1) f.2 config background).1)
  | none => f

/-- The inner loop of `process_art_folder` over one directory's file list. -/
def processDirFiles (E : PILOps) (background : RGBA) (current_dir : String)
    (files : List (String × List ℕ)) : List (String × List ℕ) :=
  files.map (processEntry E background current_dir)

mutual
/-- The recursive walk of `os.walk` combined with the per-directory file
loop: rewrites matched files everywhere in the tree. -/
def walkTree (E : PILOps) (background : RGBA) (dir : String) : FsTree → FsTree
  | .node files subs => .node (processDirFiles E background dir files) (walkDirs E background dir subs)
/-- The walk over a list of subdirectories. -/
def walkDirs (E : PILOps) (background : RGBA) (dir : String) : DirList → DirList
  | .nil => .nil
  | .cons name t rest =>
      .cons name (walkTree E background (os_path_join dir name) t) (walkDirs E background dir rest)
end

mutual
/-- The filenames on which the walk invokes the dispatcher `process_file`. -/
def walkInvoked : FsTree → List String
  | .node files subs =>
      (files.filter fun f => (TARGET_CONFIG.lookup f.1).isSome).map (fun f => f.1) ++
        walkInvokedDirs subs
/-- `walkInvoked` over a list of subdirectories. -/
def walkInvokedDirs : DirList → List String
  | .nil => []
  | .cons _ t rest => walkInvoked t ++ walkInvokedDirs rest
end

mutual
/-- Look up the content of the file `fn` in the directory reached from the
root by the directory-name path `path`. -/
def lookupFile : FsTree → List String → String → Option (List ℕ)
  | .node files _, [], fn => files.lookup fn
  | .node _ subs, d :: ds, fn => lookupFileDirs subs d ds fn
/-- `lookupFile` resolved against a subdirectory list. -/
def lookupFileDirs : DirList → String → List String → String → Option (List ℕ)
  | .nil, _, _, _ => none
  | .cons name t rest, d, ds, fn =>
      if name = d then lookupFile t ds fn else lookupFileDirs rest d ds fn
end

/-- `process_art_folder(root_path, background)`: if the root is not a
directory, print an error and return (nothing is processed and the process
will still exit normally); otherwise walk the tree and rewrite matched
files.  The first component is the processed tree, if any. -/
def process_art_folder (E : PILOps) (fs : String → Option FsTree) (root_path : String)
    (background : RGBA) : Option FsTree × List String :=
  match fs root_path with
  | none => (none, ["Error: " ++ root_path ++ " is not a valid directory."])
  | some t =>
      (some (walkTree E background root_path t),
        ["Processing artwork in: " ++ root_path, "Done."])

/-- The relevant state of the operating system for `main`: the current
working directory and, for each path, the directory tree rooted there
(`none` when the path is not a directory). -/
structure SysEnv where
  cwd : String
  fs : String → Option FsTree

/-- `main()` after command-line parsing: an invalid `--background` choice
is rejected by `argparse` (exit status 2) before the core runs; with no
positional argument the default `ART` subdirectory of the current working
directory is used and, if it is not a directory, the process exits with
status 1; otherwise `process_art_folder` runs and `main` returns normally,
exit status 0.  Result: exit status, processed tree (if any), log lines. -/
def mainRun (E : PILOps) (env : SysEnv) (art_folder_arg : Option String)
    (background_choice : String) : ℕ × Option FsTree × List String :=
  match BACKGROUND_COLORS.lookup background_choice with
  | none => (2, none, ["usage error: invalid background choice"])
  | some background_rgba =>
    match art_folder_arg with
    | none =>
        let art_folder := os_path_join env.cwd "ART"
        match env.fs art_folder with
        | none => (1, none, ["No ART folder found in current directory. Please specify a folder."])
        | some _ =>
            let r := process_art_folder E env.fs art_folder background_rgba
            (0, r.1, r.2)
    | some p =>
        let r := process_art_folder E env.fs p background_rgba
        (0, r.1, r.2)

/-- Executable mode conversion: tags the image as RGBA. -/
def refConvert (im : Img) : Img := { im with mode := "RGBA" }

/-- Executable resampling used to instantiate the abstract filter in
concrete witnesses: Pillow's documented fast path (resizing an image to its
own size returns the image unchanged), with nearest-neighbor sampling as
the stand-in for the filter at any other size. -/
def refResample (im : Img) (w h : ℕ) : Img :=
  if w = im.width ∧ h = im.height then im
  else
    { width := w, height := h, mode := im.mode,
      pix := fun i j => im.pix (i * im.width / w) (j * im.height / h) }

/-- Pillow's fixed-point `MULDIV255` macro: rounds `x * y / 255` to the
nearest integer via `(t >> 8 + t) >> 8` with `t = x * y + 128`. -/
def muldiv255 (x y : ℕ) : ℕ := ((x * y + 128) / 256 + (x * y + 128)) / 256

/-- The per-pixel compositing Pillow performs for `paste` with an RGBA
mask, applied with the pasted image itself as mask: each channel of the
result mixes the source (`src`) and destination (`dst`) channels in
proportion to the source alpha. -/
def pilBlend (src dst : RGBA) : RGBA where
  r := muldiv255 dst.r (255 - src.a) + muldiv255 src.r src.a
  g := muldiv255 dst.g (255 - src.a) + muldiv255 src.g src.a
  b := muldiv255 dst.b (255 - src.a) + muldiv255 src.b src.a
  a := muldiv255 dst.a (255 - src.a) + muldiv255 src.a src.a

/-- Executable decoder stand-in: always succeeds with a fixed 1x1 image. -/
def refDecode (_ : List ℕ) : Except String Img :=
  .ok ⟨1, 1, "RGBA", fun _ _ => ⟨0, 0, 0, 0⟩⟩

/-- Executable encoder stand-in: always succeeds. -/
def refEncode (_ : Img) : Except String (List ℕ) := .ok [0]

/-- A fully concrete instantiation of the external library, used to
evaluate the model at specific inputs. -/
def refOps : PILOps := ⟨refConvert, refResample, pilBlend, refDecode, refEncode⟩

/-- `refOps` satisfies the `convert` contract. -/
theorem refOps_convertContract : refOps.ConvertContract := by
  intro im
  exact ⟨rfl, rfl, rfl⟩

/-- `refOps` satisfies the `resize` contract. -/
theorem refOps_resampleContract : refOps.ResampleContract := by
  intro im w h
  show (refResample im w h).width = w ∧ (refResample im w h).height = h ∧
    (refResample im w h).mode = im.mode
  unfold refResample
  split
  · rename_i hc
    exact ⟨hc.1.symm, hc.2.symm, rfl⟩
  · exact ⟨rfl, rfl, rfl⟩

/-- `refOps` satisfies the same-size fast-path contract. -/
theorem refOps_resampleSameContract : refOps.ResampleSameContract := by
  intro im
  show refResample im im.width im.height = im
  unfold refResample
  rw [if_pos ⟨rfl, rfl⟩]

/-! Arithmetic facts about the Python-faithful operations. -/

/-- For a nonnegative rational, Python `int` truncation is the floor. -/
theorem pyInt_eq_floor {q : ℚ} (h : 0 ≤ q) : pyInt q = ⌊q⌋ := by
  unfold pyInt
  rw [Int.tdiv_eq_ediv (Rat.num_nonneg.mpr h) (Int.ofNat_nonneg _), Rat.floor_def]

/-- `int` of a nonnegative value is nonnegative. -/
theorem pyInt_nonneg {q : ℚ} (h : 0 ≤ q) : 0 ≤ pyInt q :=
  Int.tdiv_nonneg (Rat.num_nonneg.mpr h) (Int.ofNat_nonneg _)

/-- `int` of a natural number is itself. -/
theorem pyInt_natCast (n : ℕ) : pyInt (n : ℚ) = n := by
  unfold pyInt
  rw [Rat.num_natCast, Rat.den_natCast, Nat.cast_one, Int.tdiv_one]

/-- If `s` is at least `t / iw` then `int(iw * s)` is at least `t`. -/
theorem le_pyInt_mul {iw t : ℕ} (hiw : 0 < iw) {s : ℚ} (hs : (t : ℚ) / iw ≤ s) :
    (t : ℤ) ≤ pyInt ((iw : ℚ) * s) := by
  have hsn : (0 : ℚ) ≤ s := le_trans (by positivity) hs
  have h0 : (0 : ℚ) ≤ (iw : ℚ) * s := by positivity
  rw [pyInt_eq_floor h0, Int.le_floor]
  rw [div_le_iff₀ (by exact_mod_cast hiw)] at hs
  push_cast
  linarith

/-- If `s` is nonnegative and at most `t / iw` then `int(iw * s)` is at
most `t`. -/
theorem pyInt_mul_le {iw t : ℕ} {s : ℚ} (hsn : 0 ≤ s) (hs : s ≤ (t : ℚ) / iw) :
    pyInt ((iw : ℚ) * s) ≤ (t : ℤ) := by
  have h0 : (0 : ℚ) ≤ (iw : ℚ) * s := by positivity
  rw [pyInt_eq_floor h0]
  rcases Nat.eq_zero_or_pos iw with h | h
  · subst h
    simp
  · have : (iw : ℚ) * s ≤ (t : ℚ) := by
      rw [le_div_iff₀ (by exact_mod_cast h)] at hs
      linarith
    calc ⌊(iw : ℚ) * s⌋ ≤ ⌊(t : ℚ)⌋ := Int.floor_le_floor this
      _ = t := Int.floor_natCast t

/-- The fit scale is nonnegative. -/
theorem fitScale_nonneg (iw ih tw th : ℕ) : 0 ≤ fitScale iw ih tw th :=
  le_min (by positivity) (by positivity)

/-- The fill scale is nonnegative. -/
theorem fillScale_nonneg (iw ih tw th : ℕ) : 0 ≤ fillScale iw ih tw th :=
  le_trans (by positivity : (0 : ℚ) ≤ (tw : ℚ) / iw) (le_max_left _ _)

/-- The fit width never exceeds the target width. -/
theorem fitNewW_le (iw ih tw th : ℕ) : fitNewW iw ih tw th ≤ tw := by
  unfold fitNewW
  rw [Int.toNat_le]
  exact pyInt_mul_le (fitScale_nonneg iw ih tw th) (min_le_left _ _)

/-- The fit height never exceeds the target height. -/
theorem fitNewH_le (iw ih tw th : ℕ) : fitNewH iw ih tw th ≤ th := by
  unfold fitNewH
  rw [Int.toNat_le]
  exact pyInt_mul_le (fitScale_nonneg iw ih tw th) (min_le_right _ _)

/-- The fill width is at least the target width. -/
theorem le_fillNewW (iw ih tw th : ℕ) (hiw : 0 < iw) : tw ≤ fillNewW iw ih tw th := by
  unfold fillNewW
  have hs : (tw : ℚ) / iw ≤ fillScale iw ih tw th := by
    unfold fillScale
    exact le_max_left _ _
  have h := le_pyInt_mul hiw hs
  rw [Int.le_toNat (le_trans (Int.ofNat_nonneg tw) h)]
  exact h

/-- The fill height is at least the target height. -/
theorem le_fillNewH (iw ih tw th : ℕ) (hih : 0 < ih) : th ≤ fillNewH iw ih tw th := by
  unfold fillNewH
  have hs : (th : ℚ) / ih ≤ fillScale iw ih tw th := by
    unfold fillScale
    exact le_max_right _ _
  have h := le_pyInt_mul hih hs
  rw [Int.le_toNat (le_trans (Int.ofNat_nonneg th) h)]
  exact h

/-- Floor division by two of a nonnegative integer is nonnegative. -/
theorem fdiv_two_nonneg {n : ℤ} (h : 0 ≤ n) : 0 ≤ n.fdiv 2 :=
  Int.fdiv_nonneg h (by norm_num)

/-- Floor division by two of a nonnegative integer does not exceed it. -/
theorem fdiv_two_le {n : ℤ} (h : 0 ≤ n) : n.fdiv 2 ≤ n := by
  rw [Int.fdiv_eq_ediv _ (by norm_num)]
  exact Int.ediv_le_self 2 h

/-- At matching size, the fit scale is one. -/
theorem fitScale_self {w h : ℕ} (hw : 0 < w) (hh : 0 < h) : fitScale w h w h = 1 := by
  unfold fitScale
  rw [div_self (by exact_mod_cast hw.ne'), div_self (by exact_mod_cast hh.ne'), min_self]

/-- At matching size, the fill scale is one. -/
theorem fillScale_self {w h : ℕ} (hw : 0 < w) (hh : 0 < h) : fillScale w h w h = 1 := by
  unfold fillScale
  rw [div_self (by exact_mod_cast hw.ne'), div_self (by exact_mod_cast hh.ne'), max_self]

/-- At matching size, the fit width is the width itself. -/
theorem fitNewW_self {w h : ℕ} (hw : 0 < w) (hh : 0 < h) : fitNewW w h w h = w := by
  unfold fitNewW
  rw [fitScale_self hw hh, mul_one, pyInt_natCast, Int.toNat_natCast]

/-- At matching size, the fit height is the height itself. -/
theorem fitNewH_self {w h : ℕ} (hw : 0 < w) (hh : 0 < h) : fitNewH w h w h = h := by
  unfold fitNewH
  rw [fitScale_self hw hh, mul_one, pyInt_natCast, Int.toNat_natCast]

/-- At matching size, the fill width is the width itself. -/
theorem fillNewW_self {w h : ℕ} (hw : 0 < w) (hh : 0 < h) : fillNewW w h w h = w := by
  unfold fillNewW
  rw [fillScale_self hw hh, mul_one, pyInt_natCast, Int.toNat_natCast]

/-- At matching size, the fill height is the height itself. -/
theorem fillNewH_self {w h : ℕ} (hw : 0 < w) (hh : 0 < h) : fillNewH w h w h = h := by
  unfold fillNewH
  rw [fillScale_self hw hh, mul_one, pyInt_natCast, Int.toNat_natCast]

/-- The crop offset is nonnegative when the resized dimension covers the
target. -/
theorem fillOffset_nonneg {nw tw : ℕ} (h : tw ≤ nw) : 0 ≤ fillOffset nw tw := by
  unfold fillOffset
  exact fdiv_two_nonneg (by omega)

/-- The crop box stays within the resized image. -/
theorem fillOffset_add_le {nw tw : ℕ} (h : tw ≤ nw) : (fillOffset nw tw).toNat + tw ≤ nw := by
  have h0 : (0 : ℤ) ≤ (nw : ℤ) - (tw : ℤ) := by omega
  have h1 := fdiv_two_le h0
  have h2 := fdiv_two_nonneg h0
  unfold fillOffset
  omega

/-- The paste offset is nonnegative when the resized dimension fits inside
the target. -/
theorem fitOffset_nonneg {nw tw : ℕ} (h : nw ≤ tw) : 0 ≤ fitOffset tw nw := by
  unfold fitOffset
  exact fdiv_two_nonneg (by omega)

/-- The pasted rectangle stays within the canvas. -/
theorem fitOffset_add_le {nw tw : ℕ} (h : nw ≤ tw) : fitOffset tw nw + (nw : ℤ) ≤ (tw : ℤ) := by
  have h0 : (0 : ℤ) ≤ (tw : ℤ) - (nw : ℤ) := by omega
  have h1 := fdiv_two_le h0
  unfold fitOffset
  omega

/-! Facts about the RGBA conversion step shared by both transforms. -/

/-- Under the convert contract, the conversion step yields RGBA mode. -/
theorem toRGBA_mode {E : PILOps} (hconv : E.ConvertContract) (img : Img) :
    (toRGBA E img).mode = "RGBA" := by
  unfold toRGBA
  split
  · exact (hconv img).2.2
  · rename_i hmode
    rw [not_not] at hmode
    exact hmode

/-- Under the convert contract, the conversion step preserves the width. -/
theorem toRGBA_width {E : PILOps} (hconv : E.ConvertContract) (img : Img) :
    (toRGBA E img).width = img.width := by
  unfold toRGBA
  split
  · exact (hconv img).1
  · rfl

/-- Under the convert contract, the conversion step preserves the height. -/
theorem toRGBA_height {E : PILOps} (hconv : E.ConvertContract) (img : Img) :
    (toRGBA E img).height = img.height := by
  unfold toRGBA
  split
  · exact (hconv img).2.1
  · rfl

/-- C3: for every input image (of positive, i.e. decodable, dimensions) and
every target `(w, h)`, both the fit transform and the fill transform return
an image whose dimensions are exactly `(w, h)`. -/
theorem fit_fill_exact_dims (E : PILOps) (img : Img) (tw th : ℕ) (background : RGBA)
    (hconv : E.ConvertContract) (hres : E.ResampleContract)
    (hw : 0 < img.width) (hh : 0 < img.height) :
    (fit_image E img (tw, th) background).size = (tw, th) ∧
    (fill_image E img (tw, th)).size = (tw, th) := by
  constructor
  · rfl
  · show ((Img.crop _ _ _ _ _).width, (Img.crop _ _ _ _ _).height) = (tw, th)
    simp only [fill_image, Img.crop]
    rw [Prod.mk.injEq]
    constructor <;> omega

/-- C10: whatever the original color mode, both transforms return an image
in RGBA mode (the input is converted to RGBA before any scaling, and fit
builds its canvas in RGBA). -/
theorem fit_fill_rgba_mode (E : PILOps) (img : Img) (tw th : ℕ) (background : RGBA)
    (hconv : E.ConvertContract) (hres : E.ResampleContract) :
    (toRGBA E img).mode = "RGBA" ∧
    (fit_image E img (tw, th) background).mode = "RGBA" ∧
    (fill_image E img (tw, th)).mode = "RGBA" := by
  refine ⟨toRGBA_mode hconv img, rfl, ?_⟩
  show (Img.crop _ _ _ _ _).mode = "RGBA"
  simp only [fill_image, Img.crop]
  rw [(hres _ _ _).2.2]
  exact toRGBA_mode hconv img

/-! The fill transform ignores the background entirely. -/

/-- The dispatcher body does not use the background except in fit mode. -/
theorem process_file_body_bg {E : PILOps} {content : List ℕ} {config : FileConfig}
    (h : config.mode ≠ "fit") (bg1 bg2 : RGBA) :
    process_file_body E content config bg1 = process_file_body E content config bg2 := by
  simp only [process_file_body, if_neg h]

/-- The dispatcher result does not use the background except in fit mode. -/
theorem process_file_bg {E : PILOps} {file_path : String} {content : List ℕ}
    {config : FileConfig} (h : config.mode ≠ "fit") (bg1 bg2 : RGBA) :
    process_file E file_path content config bg1 = process_file E file_path content config bg2 := by
  unfold process_file
  rw [process_file_body_bg h bg1 bg2]

/-- The file loop never renames a file. -/
theorem processEntry_fst (E : PILOps) (bg : RGBA) (dir : String) (f : String × List ℕ) :
    (processEntry E bg dir f).1 = f.1 := by
  unfold processEntry
  split <;> rfl

/-- The content the file loop leaves for an entry, as a function of the
entry's name and content. -/
theorem processEntry_snd (E : PILOps) (bg : RGBA) (dir n : String) (c : List ℕ) :
    (processEntry E bg dir (n, c)).2 =
      match TARGET_CONFIG.lookup n with
      | some config => (process_file E (os_path_join dir n) c config bg).1
      | none => c := by
  unfold processEntry
  cases TARGET_CONFIG.lookup n <;> rfl

/-- Characterization of a lookup after the per-directory loop: the entry
keeps its key, and its value is transformed exactly when the key is a
`TARGET_CONFIG` key. -/
theorem processDirFiles_lookup (E : PILOps) (bg : RGBA) (dir : String) :
    ∀ (files : List (String × List ℕ)) (fn : String),
      (processDirFiles E bg dir files).lookup fn =
        (files.lookup fn).map fun c =>
          match TARGET_CONFIG.lookup fn with
          | some config => (process_file E (os_path_join dir fn) c config bg).1
          | none => c
  | [], _ => rfl
  | (n, c) :: rest, fn => by
      have tail := processDirFiles_lookup E bg dir rest fn
      simp only [processDirFiles, List.map_cons] at tail ⊢
      have hhead : processEntry E bg dir (n, c) =
          (n, (processEntry E bg dir (n, c)).2) :=
        Prod.ext (processEntry_fst E bg dir (n, c)) rfl
      rw [hhead, List.lookup_cons, List.lookup_cons]
      by_cases hbeq : fn == n
      · have heq : fn = n := eq_of_beq hbeq
        subst heq
        simp only [hbeq, Option.map_some']
        rw [processEntry_snd]
      · rw [Bool.not_eq_true] at hbeq
        simp only [hbeq]
        exact tail

/-- Looking up a `PIC1.png` entry after the per-directory loop is
independent of the background. -/
theorem processDirFiles_lookup_pic1 (E : PILOps) (bg1 bg2 : RGBA) (dir : String)
    (files : List (String × List ℕ)) :
    (processDirFiles E bg1 dir files).lookup "PIC1.png" =
    (processDirFiles E bg2 dir files).lookup "PIC1.png" := by
  rw [processDirFiles_lookup, processDirFiles_lookup]
  cases files.lookup "PIC1.png" with
  | none => rfl
  | some c =>
      show some _ = some _
      rw [show TARGET_CONFIG.lookup "PIC1.png" = some ⟨(640, 448), "fill"⟩ from rfl]
      show some (process_file E _ c _ bg1).1 = some (process_file E _ c _ bg2).1
      rw [process_file_bg (by decide) bg1 bg2]

mutual
/-- `lookupFile` of a `PIC1.png` entry in the walked tree is independent of
the background. -/
theorem lookup_walk_pic1 (E : PILOps) (bg1 bg2 : RGBA) :
    ∀ (t : FsTree) (dir : String) (path : List String),
      lookupFile (walkTree E bg1 dir t) path "PIC1.png" =
      lookupFile (walkTree E bg2 dir t) path "PIC1.png"
  | .node files subs, dir, [] => by
      simp only [walkTree, lookupFile]
      exact processDirFiles_lookup_pic1 E bg1 bg2 dir files
  | .node files subs, dir, d :: ds => by
      simp only [walkTree, lookupFile]
      exact lookup_walk_pic1_dirs E bg1 bg2 subs dir d ds
/-- `lookup_walk_pic1` over a subdirectory list. -/
theorem lookup_walk_pic1_dirs (E : PILOps) (bg1 bg2 : RGBA) :
    ∀ (subs : DirList) (dir d : String) (ds : List String),
      lookupFileDirs (walkDirs E bg1 dir subs) d ds "PIC1.png" =
      lookupFileDirs (walkDirs E bg2 dir subs) d ds "PIC1.png"
  | .nil, _, _, _ => rfl
  | .cons name t rest, dir, d, ds => by
      simp only [walkDirs, lookupFileDirs]
      split
      · exact lookup_walk_pic1 E bg1 bg2 t (os_path_join dir name) ds
      · exact lookup_walk_pic1_dirs E bg1 bg2 rest dir d ds
end

/-- C9: the fill output does not depend on the selected background color:
two runs differing only in the background produce identical `PIC1.png`
contents everywhere in the tree. -/
theorem fill_ignores_background (E : PILOps) (bg1 bg2 : RGBA) (dir : String)
    (t : FsTree) (path : List String) :
    lookupFile (walkTree E bg1 dir t) path "PIC1.png" =
    lookupFile (walkTree E bg2 dir t) path "PIC1.png" :=
  lookup_walk_pic1 E bg1 bg2 t dir path

/-- Pixel-level characterization of the fill transform: the crop box lies
entirely inside the resized image, and every output pixel is the
corresponding pixel of the resized image, shifted by the crop offsets. -/
theorem fill_pix_char (E : PILOps) (img : Img) (tw th : ℕ)
    (hconv : E.ConvertContract) (hres : E.ResampleContract)
    (hw : 0 < img.width) (hh : 0 < img.height) :
    0 ≤ fillOffset (fillNewW (toRGBA E img).width (toRGBA E img).height tw th) tw ∧
    0 ≤ fillOffset (fillNewH (toRGBA E img).width (toRGBA E img).height tw th) th ∧
    (fillOffset (fillNewW (toRGBA E img).width (toRGBA E img).height tw th) tw).toNat + tw ≤
      fillNewW (toRGBA E img).width (toRGBA E img).height tw th ∧
    (fillOffset (fillNewH (toRGBA E img).width (toRGBA E img).height tw th) th).toNat + th ≤
      fillNewH (toRGBA E img).width (toRGBA E img).height tw th ∧
    ∀ i j : ℕ, i < tw → j < th →
      (fill_image E img (tw, th)).pix i j =
        (E.resample (toRGBA E img)
            (fillNewW (toRGBA E img).width (toRGBA E img).height tw th)
            (fillNewH (toRGBA E img).width (toRGBA E img).height tw th)).pix
          ((fillOffset (fillNewW (toRGBA E img).width (toRGBA E img).height tw th) tw).toNat + i)
          ((fillOffset (fillNewH (toRGBA E img).width (toRGBA E img).height tw th) th).toNat + j) := by
  have hcw : 0 < (toRGBA E img).width := by
    rw [toRGBA_width hconv]
    exact hw
  have hch : 0 < (toRGBA E img).height := by
    rw [toRGBA_height hconv]
    exact hh
  have hnw : tw ≤ fillNewW (toRGBA E img).width (toRGBA E img).height tw th :=
    le_fillNewW _ _ _ _ hcw
  have hnh : th ≤ fillNewH (toRGBA E img).width (toRGBA E img).height tw th :=
    le_fillNewH _ _ _ _ hch
  have hL0 := fillOffset_nonneg hnw
  have hT0 := fillOffset_nonneg hnh
  have hLle := fillOffset_add_le hnw
  have hTle := fillOffset_add_le hnh
  refine ⟨hL0, hT0, hLle, hTle, ?_⟩
  intro i j hi hj
  show (Img.crop _ _ _ _ _).pix i j = _
  simp only [fill_image, Img.crop]
  rw [(hres _ _ _).1, (hres _ _ _).2.1]
  rw [if_pos ⟨by omega, by omega, by omega, by omega⟩]
  have e1 : (fillOffset (fillNewW (toRGBA E img).width (toRGBA E img).height tw th) tw +
      (i : ℤ)).toNat =
      (fillOffset (fillNewW (toRGBA E img).width (toRGBA E img).height tw th) tw).toNat + i := by
    omega
  have e2 : (fillOffset (fillNewH (toRGBA E img).width (toRGBA E img).height tw th) th +
      (j : ℤ)).toNat =
      (fillOffset (fillNewH (toRGBA E img).width (toRGBA E img).height tw th) th).toNat + j := by
    omega
  rw [e1, e2]

/-- C2: the fill output contains no border or padding pixels: the centered
crop box lies entirely inside the resized source, and every output pixel is
a pixel of the (converted, resampled) source image, never the crop's fill
value. -/
theorem fill_no_padding (E : PILOps) (img : Img) (tw th : ℕ)
    (hconv : E.ConvertContract) (hres : E.ResampleContract)
    (hw : 0 < img.width) (hh : 0 < img.height) :
    (fillOffset (fillNewW (toRGBA E img).width (toRGBA E img).height tw th) tw).toNat + tw ≤
      fillNewW (toRGBA E img).width (toRGBA E img).height tw th ∧
    (fillOffset (fillNewH (toRGBA E img).width (toRGBA E img).height tw th) th).toNat + th ≤
      fillNewH (toRGBA E img).width (toRGBA E img).height tw th ∧
    ∀ i j : ℕ, i < tw → j < th →
      (fill_image E img (tw, th)).pix i j =
        (E.resample (toRGBA E img)
            (fillNewW (toRGBA E img).width (toRGBA E img).height tw th)
            (fillNewH (toRGBA E img).width (toRGBA E img).height tw th)).pix
          ((fillOffset (fillNewW (toRGBA E img).width (toRGBA E img).height tw th) tw).toNat + i)
          ((fillOffset (fillNewH (toRGBA E img).width (toRGBA E img).height tw th) th).toNat + j) := by
  obtain ⟨-, -, h1, h2, h3⟩ := fill_pix_char E img tw th hconv hres hw hh
  exact ⟨h1, h2, h3⟩

/-- C4: the fit transform places the scaled image entirely inside the
target canvas with nonnegative centering offsets, and every canvas pixel
outside the pasted rectangle equals the chosen background color exactly. -/
theorem fit_letterbox (E : PILOps) (img : Img) (tw th : ℕ) (background : RGBA)
    (hconv : E.ConvertContract) (hres : E.ResampleContract)
    (hw : 0 < img.width) (hh : 0 < img.height) :
    fitNewW (toRGBA E img).width (toRGBA E img).height tw th ≤ tw ∧
    fitNewH (toRGBA E img).width (toRGBA E img).height tw th ≤ th ∧
    0 ≤ fitOffset tw (fitNewW (toRGBA E img).width (toRGBA E img).height tw th) ∧
    0 ≤ fitOffset th (fitNewH (toRGBA E img).width (toRGBA E img).height tw th) ∧
    fitOffset tw (fitNewW (toRGBA E img).width (toRGBA E img).height tw th) +
      (fitNewW (toRGBA E img).width (toRGBA E img).height tw th : ℤ) ≤ (tw : ℤ) ∧
    fitOffset th (fitNewH (toRGBA E img).width (toRGBA E img).height tw th) +
      (fitNewH (toRGBA E img).width (toRGBA E img).height tw th : ℤ) ≤ (th : ℤ) ∧
    ∀ i j : ℕ,
      ¬(fitOffset tw (fitNewW (toRGBA E img).width (toRGBA E img).height tw th) ≤ (i : ℤ) ∧
        (i : ℤ) < fitOffset tw (fitNewW (toRGBA E img).width (toRGBA E img).height tw th) +
          (fitNewW (toRGBA E img).width (toRGBA E img).height tw th : ℤ) ∧
        fitOffset th (fitNewH (toRGBA E img).width (toRGBA E img).height tw th) ≤ (j : ℤ) ∧
        (j : ℤ) < fitOffset th (fitNewH (toRGBA E img).width (toRGBA E img).height tw th) +
          (fitNewH (toRGBA E img).width (toRGBA E img).height tw th : ℤ)) →
      (fit_image E img (tw, th) background).pix i j = background := by
  have hnw : fitNewW (toRGBA E img).width (toRGBA E img).height tw th ≤ tw :=
    fitNewW_le _ _ _ _
  have hnh : fitNewH (toRGBA E img).width (toRGBA E img).height tw th ≤ th :=
    fitNewH_le _ _ _ _
  refine ⟨hnw, hnh, fitOffset_nonneg hnw, fitOffset_nonneg hnh,
    fitOffset_add_le hnw, fitOffset_add_le hnh, ?_⟩
  intro i j hout
  show (Img.paste _ _ _ _ _).pix i j = background
  simp only [fit_image, Img.paste]
  rw [(hres _ _ _).1, (hres _ _ _).2.1]
  rw [if_neg hout]
  rfl

/-! Concrete evaluation of the fill geometry for a 1920x1080 input. -/

/-- Evaluate an `int` truncation of a nonnegative rational via bounds. -/
theorem pyInt_toNat_eval {q : ℚ} {n : ℕ} (h1 : (n : ℚ) ≤ q) (h2 : q < n + 1) :
    (pyInt q).toNat = n := by
  have h0 : (0 : ℚ) ≤ q := le_trans (by positivity) h1
  rw [pyInt_eq_floor h0]
  have hfl : ⌊q⌋ = (n : ℤ) :=
    Int.floor_eq_iff.mpr ⟨by exact_mod_cast h1, by push_cast; exact h2⟩
  rw [hfl, Int.toNat_natCast]

/-- For a 1920x1080 input and 640x448 target, the fill scale is the height
ratio (the larger of the two ratios). -/
theorem fillScale_1920 : fillScale 1920 1080 640 448 = 448 / 1080 := by
  unfold fillScale
  exact max_eq_right (by norm_num)

/-- The scaled width for a 1920x1080 input covering 640x448. -/
theorem fillNewW_1920 : fillNewW 1920 1080 640 448 = 796 := by
  unfold fillNewW
  rw [fillScale_1920]
  exact pyInt_toNat_eval (by norm_num) (by norm_num)

/-- The scaled height for a 1920x1080 input covering 640x448. -/
theorem fillNewH_1920 : fillNewH 1920 1080 640 448 = 448 := by
  unfold fillNewH
  rw [fillScale_1920]
  exact pyInt_toNat_eval (by norm_num) (by norm_num)

/-- The horizontal crop offset for the 1920x1080 example. -/
theorem fillOffset_796_640 : fillOffset 796 640 = 78 := by
  unfold fillOffset
  decide

/-- The vertical crop offset for the 1920x1080 example. -/
theorem fillOffset_448_448 : fillOffset 448 448 = 0 := by
  unfold fillOffset
  decide

/-- C7: the fill transform scales by the larger ratio, truncates with floor
division, and crops symmetrically from the center: for a 1920x1080 input
and the PIC1 target 640x448 the scaled size is 796x448 and the crop
discards exactly 78 columns on the left and 78 on the right (and nothing
vertically), every output pixel coming from the resized image shifted by
that offset. -/
theorem fill_1920_symmetric_crop (E : PILOps) (img : Img)
    (hconv : E.ConvertContract) (hres : E.ResampleContract)
    (hiw : img.width = 1920) (hih : img.height = 1080) :
    fillScale 1920 1080 640 448 = 448 / 1080 ∧
    fillNewW 1920 1080 640 448 = 796 ∧
    fillNewH 1920 1080 640 448 = 448 ∧
    (fillOffset 796 640).toNat = 78 ∧
    fillNewW 1920 1080 640 448 - ((fillOffset 796 640).toNat + 640) = 78 ∧
    (fillOffset 448 448).toNat = 0 ∧
    fillNewH 1920 1080 640 448 - ((fillOffset 448 448).toNat + 448) = 0 ∧
    ∀ i j : ℕ, i < 640 → j < 448 →
      (fill_image E img (640, 448)).pix i j =
        (E.resample (toRGBA E img) 796 448).pix (78 + i) j := by
  have hcw : (toRGBA E img).width = 1920 := by rw [toRGBA_width hconv, hiw]
  have hch : (toRGBA E img).height = 1080 := by rw [toRGBA_height hconv, hih]
  refine ⟨fillScale_1920, fillNewW_1920, fillNewH_1920, ?_, ?_, ?_, ?_, ?_⟩
  · rw [fillOffset_796_640]
    decide
  · rw [fillNewW_1920, fillOffset_796_640]
    decide
  · rw [fillOffset_448_448]
    decide
  · rw [fillNewH_1920, fillOffset_448_448]
    decide
  · intro i j hi hj
    have h := (fill_pix_char E img 640 448 hconv hres (by omega) (by omega)).2.2.2.2 i j hi hj
    rw [hcw, hch, fillNewW_1920, fillNewH_1920, fillOffset_796_640, fillOffset_448_448] at h
    rw [h]
    have e1 : Int.toNat 78 + i = 78 + i := by omega
    have e2 : Int.toNat 0 + j = j := by omega
    rw [e1, e2]

/-! Behavior of the transforms on an image that already has exactly the
target size. -/

/-- Centering offset of an exact-size paste is zero. -/
theorem fitOffset_self (n : ℕ) : fitOffset n n = 0 := by
  unfold fitOffset
  rw [sub_self]
  decide

/-- Crop offset of an exact-size crop is zero. -/
theorem fillOffset_self (n : ℕ) : fillOffset n n = 0 := by
  unfold fillOffset
  rw [sub_self]
  decide

/-- An already-RGBA image is not converted. -/
theorem toRGBA_of_rgba {E : PILOps} {img : Img} (hmode : img.mode = "RGBA") :
    toRGBA E img = img := by
  unfold toRGBA
  rw [if_neg]
  rw [hmode]
  exact fun hcon => hcon rfl

/-- Applying fit to an RGBA image of exactly the target size blends each
source pixel over the background with the source's own alpha as mask. -/
theorem fit_same_size_pix (E : PILOps) (img : Img) (background : RGBA)
    (hres2 : E.ResampleSameContract) (hmode : img.mode = "RGBA")
    (hw : 0 < img.width) (hh : 0 < img.height) :
    ∀ i j : ℕ, i < img.width → j < img.height →
      (fit_image E img (img.width, img.height) background).pix i j =
        E.blend (img.pix i j) background := by
  intro i j hi hj
  show (Img.paste _ _ _ _ _).pix i j = _
  simp only [fit_image, toRGBA_of_rgba hmode]
  rw [fitNewW_self hw hh, fitNewH_self hw hh, hres2 img, fitOffset_self, fitOffset_self]
  show (Img.paste _ _ _ _ _).pix i j = _
  simp only [Img.paste]
  rw [if_pos ⟨by omega, by omega, by omega, by omega⟩]
  have e1 : ((i : ℤ) - 0).toNat = i := by omega
  have e2 : ((j : ℤ) - 0).toNat = j := by omega
  rw [e1, e2]
  rfl

/-- Applying fill to an RGBA image of exactly the target size returns every
pixel unchanged. -/
theorem fill_same_size_pix (E : PILOps) (img : Img)
    (hres2 : E.ResampleSameContract) (hmode : img.mode = "RGBA")
    (hw : 0 < img.width) (hh : 0 < img.height) :
    ∀ i j : ℕ, i < img.width → j < img.height →
      (fill_image E img (img.width, img.height)).pix i j = img.pix i j := by
  intro i j hi hj
  show (Img.crop _ _ _ _ _).pix i j = _
  simp only [fill_image, toRGBA_of_rgba hmode]
  rw [fillNewW_self hw hh, fillNewH_self hw hh, hres2 img, fillOffset_self, fillOffset_self]
  show (Img.crop _ _ _ _ _).pix i j = _
  simp only [Img.crop]
  rw [if_pos ⟨by omega, by omega, by omega, by omega⟩]
  have e1 : ((0 : ℤ) + (i : ℤ)).toNat = i := by omega
  have e2 : ((0 : ℤ) + (j : ℤ)).toNat = j := by omega
  rw [e1, e2]

/-- C6 (amended): on an already-target-sized RGBA image, fill reproduces
the image exactly; fit reproduces it provided compositing each of its
pixels over the background with the pixel's own alpha leaves the pixel
unchanged (in particular for a fully opaque image) — without that
proviso fit blends semi-transparent pixels with the background. -/
theorem idempotent_on_exact_size (E : PILOps) (img : Img) (background : RGBA)
    (hres2 : E.ResampleSameContract) (hmode : img.mode = "RGBA")
    (hw : 0 < img.width) (hh : 0 < img.height)
    (hblend : ∀ i j : ℕ, i < img.width → j < img.height →
      E.blend (img.pix i j) background = img.pix i j) :
    (∀ i j : ℕ, i < img.width → j < img.height →
      (fit_image E img (img.width, img.height) background).pix i j = img.pix i j) ∧
    (fit_image E img (img.width, img.height) background).size = img.size ∧
    (∀ i j : ℕ, i < img.width → j < img.height →
      (fill_image E img (img.width, img.height)).pix i j = img.pix i j) ∧
    (fill_image E img (img.width, img.height)).size = img.size := by
  refine ⟨?_, rfl, fill_same_size_pix E img hres2 hmode hw hh, ?_⟩
  · intro i j hi hj
    rw [fit_same_size_pix E img background hres2 hmode hw hh i j hi hj]
    exact hblend i j hi hj
  · show ((Img.crop _ _ _ _ _).width, (Img.crop _ _ _ _ _).height) = _
    simp only [fill_image, Img.crop]
    rw [Prod.mk.injEq]
    unfold Img.size
    constructor <;> omega

/-- A 1x1 RGBA image with a single semi-transparent red pixel. -/
def cexImg : Img := ⟨1, 1, "RGBA", fun _ _ => ⟨255, 0, 0, 128⟩⟩

/-- C6 (counterexample): `cexImg` already has exactly the target size 1x1
(and hence matching aspect ratio) and is in RGBA mode, yet applying fit
with the transparent background does not reproduce it: the semi-transparent
pixel is blended with the background by the alpha-mask paste. -/
theorem fit_not_idempotent_cex :
    cexImg.size = (1, 1) ∧ cexImg.mode = "RGBA" ∧
    (fit_image refOps cexImg (1, 1) ⟨0, 0, 0, 0⟩).pix 0 0 ≠ cexImg.pix 0 0 := by
  refine ⟨rfl, rfl, ?_⟩
  have h : (fit_image refOps cexImg (1, 1) ⟨0, 0, 0, 0⟩).pix 0 0 =
      refOps.blend (cexImg.pix 0 0) ⟨0, 0, 0, 0⟩ :=
    fit_same_size_pix refOps cexImg ⟨0, 0, 0, 0⟩ refOps_resampleSameContract rfl
      (by decide) (by decide) 0 0 (by decide) (by decide)
  rw [h]
  decide

/-! Error isolation in the dispatcher and walker. -/

/-- C5: every failure inside the dispatcher body (decode error, unknown
strategy tag, or write failure) is caught by the dispatcher, which reports
the file path together with the error and leaves the file's content, and
the per-directory loop is pointwise, so an error in one file never prevents
processing of sibling files. -/
theorem process_file_error_isolated (E : PILOps) (file_path : String) (content : List ℕ)
    (config : FileConfig) (background : RGBA) (e : String)
    (herr : process_file_body E content config background = .error e) :
    process_file E file_path content config background =
      (content, [errorLine file_path e]) ∧
    ∀ (bg : RGBA) (dir : String) (l1 l2 : List (String × List ℕ)),
      processDirFiles E bg dir (l1 ++ l2) =
        processDirFiles E bg dir l1 ++ processDirFiles E bg dir l2 := by
  constructor
  · unfold process_file
    rw [herr]
  · intro bg dir l1 l2
    unfold processDirFiles
    exact List.map_append _ l1 l2

/-! Unmatched filenames are never dispatched and never modified. -/

mutual
/-- Walking leaves every file whose name is not a `TARGET_CONFIG` key
untouched. -/
theorem walk_unmatched (E : PILOps) (bg : RGBA) :
    ∀ (t : FsTree) (dir : String) (path : List String) (fn : String),
      TARGET_CONFIG.lookup fn = none →
      lookupFile (walkTree E bg dir t) path fn = lookupFile t path fn
  | .node files subs, dir, [], fn => fun hfn => by
      simp only [walkTree, lookupFile]
      rw [processDirFiles_lookup]
      simp only [hfn]
      cases files.lookup fn <;> rfl
  | .node files subs, dir, d :: ds, fn => fun hfn => by
      simp only [walkTree, lookupFile]
      exact walk_unmatched_dirs E bg subs dir d ds fn hfn
/-- `walk_unmatched` over a subdirectory list. -/
theorem walk_unmatched_dirs (E : PILOps) (bg : RGBA) :
    ∀ (subs : DirList) (dir d : String) (ds : List String) (fn : String),
      TARGET_CONFIG.lookup fn = none →
      lookupFileDirs (walkDirs E bg dir subs) d ds fn = lookupFileDirs subs d ds fn
  | .nil, _, _, _, _ => fun _ => rfl
  | .cons name t rest, dir, d, ds, fn => fun hfn => by
      simp only [walkDirs, lookupFileDirs]
      split
      · exact walk_unmatched E bg t (os_path_join dir name) ds fn hfn
      · exact walk_unmatched_dirs E bg rest dir d ds fn hfn
end

mutual
/-- A name that is not a `TARGET_CONFIG` key is never among the dispatched
filenames of a walk. -/
theorem not_invoked_unmatched :
    ∀ (t : FsTree) (fn : String), TARGET_CONFIG.lookup fn = none → fn ∉ walkInvoked t
  | .node files subs, fn => fun hfn hmem => by
      rw [walkInvoked, List.mem_append] at hmem
      cases hmem with
      | inl hl =>
          obtain ⟨f, hf, hfeq⟩ := List.mem_map.mp hl
          have hsome := (List.mem_filter.mp hf).2
          rw [hfeq, hfn] at hsome
          exact absurd hsome (by decide)
      | inr hr => exact not_invoked_unmatched_dirs subs fn hfn hr
/-- `not_invoked_unmatched` over a subdirectory list. -/
theorem not_invoked_unmatched_dirs :
    ∀ (subs : DirList) (fn : String),
      TARGET_CONFIG.lookup fn = none → fn ∉ walkInvokedDirs subs
  | .nil, _ => fun _ hmem => by
      rw [walkInvokedDirs] at hmem
      exact absurd hmem (List.not_mem_nil _)
  | .cons name t rest, fn => fun hfn hmem => by
      rw [walkInvokedDirs, List.mem_append] at hmem
      cases hmem with
      | inl hl => exact not_invoked_unmatched t fn hfn hl
      | inr hr => exact not_invoked_unmatched_dirs rest fn hfn hr
end

/-- C8: for every file in the tree whose name is not one of the two target
filenames, the walker never invokes the dispatcher on it and its content is
unchanged by the run. -/
theorem unmatched_untouched (E : PILOps) (bg : RGBA) (t : FsTree) (dir : String)
    (path : List String) (fn : String) (hfn : TARGET_CONFIG.lookup fn = none) :
    fn ∉ walkInvoked t ∧
    lookupFile (walkTree E bg dir t) path fn = lookupFile t path fn :=
  ⟨not_invoked_unmatched t fn hfn, walk_unmatched E bg t dir path fn hfn⟩

/-! Startup validation and exit codes. -/

/-- C1 (amended): the exit status is nonzero exactly when no root path was
supplied and the default `ART` subdirectory of the working directory is not
a directory (or the parser rejected the background choice); when a root
path is explicitly supplied but is not a valid directory, the run prints an
error, processes nothing, and still exits with status zero. -/
theorem exit_code_characterization (E : PILOps) (env : SysEnv) (arg : Option String)
    (choice : String) (bg : RGBA) (hbg : BACKGROUND_COLORS.lookup choice = some bg) :
    ((mainRun E env arg choice).1 ≠ 0 ↔
      arg = none ∧ env.fs (os_path_join env.cwd "ART") = none) ∧
    (∀ p : String, arg = some p → env.fs p = none →
      (mainRun E env arg choice).1 = 0 ∧ (mainRun E env arg choice).2.1 = none) := by
  cases arg with
  | none =>
      refine ⟨?_, ?_⟩
      · cases hfs : env.fs (os_path_join env.cwd "ART") with
        | none => simp [mainRun, hbg, hfs]
        | some t => simp [mainRun, process_art_folder, hbg, hfs]
      · intro p hp
        exact absurd hp (by simp)
  | some p =>
      refine ⟨by simp [mainRun, process_art_folder, hbg], ?_⟩
      intro q hq hfsq
      injection hq with hq
      subst hq
      refine ⟨by simp [mainRun, process_art_folder, hbg], ?_⟩
      simp [mainRun, process_art_folder, hbg, hfsq]

/-- An environment in which no path is a directory. -/
def cexEnv : SysEnv := ⟨"/cwd", fun _ => none⟩

/-- C1 (counterexample): an explicitly supplied root path that is not a
valid directory does not make the process exit with a nonzero status: the
run processes nothing and exits with status zero. -/
theorem exit_zero_on_invalid_explicit_root :
    cexEnv.fs "/missing" = none ∧
    (mainRun refOps cexEnv (some "/missing") "transparent").1 = 0 ∧
    (mainRun refOps cexEnv (some "/missing") "transparent").2.1 = none :=
  ⟨rfl, rfl, rfl⟩

/-! Concrete inputs used to witness the theorems above. -/

/-- A 2x3 grayscale test image. -/
def wImg : Img := ⟨2, 3, "L", fun _ _ => ⟨1, 2, 3, 255⟩⟩

/-- A 1920x1080 opaque RGBA test image. -/
def wImg1920 : Img := ⟨1920, 1080, "RGBA", fun _ _ => ⟨9, 9, 9, 255⟩⟩

/-- A 1x1 fully opaque RGBA test image. -/
def opaqueImg : Img := ⟨1, 1, "RGBA", fun _ _ => ⟨10, 20, 30, 255⟩⟩

/-- A library instantiation whose decoder always fails. -/
def badOps : PILOps := { refOps with decode := fun _ => .error "cannot identify image file" }

/-- A small test tree with an unmatched file at two depths. -/
def wTree : FsTree :=
  .node [("readme.txt", [3])] (.cons "sub" (.node [("readme.txt", [4])] .nil) .nil)

/-- The fit scale of a 1x1 image against a 2x1 target. -/
theorem fitScale_1121 : fitScale 1 1 2 1 = 1 := by
  unfold fitScale
  push_cast
  rw [min_eq_right (by norm_num : (1 : ℚ) / 1 ≤ (2 : ℚ) / 1)]
  norm_num

/-- The fit width of a 1x1 image against a 2x1 target. -/
theorem fitNewW_1121 : fitNewW 1 1 2 1 = 1 := by
  unfold fitNewW
  rw [fitScale_1121]
  exact pyInt_toNat_eval (by norm_num) (by norm_num)

/-- The fit height of a 1x1 image against a 2x1 target. -/
theorem fitNewH_1121 : fitNewH 1 1 2 1 = 1 := by
  unfold fitNewH
  rw [fitScale_1121]
  exact pyInt_toNat_eval (by norm_num) (by norm_num)

/-- Witness for the exit-code characterization, at a concrete run. -/
theorem exit_code_characterization_witness :
    BACKGROUND_COLORS.lookup "black" = some ⟨0, 0, 0, 255⟩ ∧
    ((mainRun refOps cexEnv none "black").1 ≠ 0 ↔
      (none : Option String) = none ∧
        cexEnv.fs (os_path_join cexEnv.cwd "ART") = none) :=
  ⟨rfl, (exit_code_characterization refOps cexEnv none "black" ⟨0, 0, 0, 255⟩ rfl).1⟩

/-- Witness for the fill no-padding theorem, at a concrete image and pixel. -/
theorem fill_no_padding_witness :
    0 < wImg.width ∧ 0 < wImg.height ∧
    (fill_image refOps wImg (5, 7)).pix 0 0 =
      (refOps.resample (toRGBA refOps wImg)
          (fillNewW (toRGBA refOps wImg).width (toRGBA refOps wImg).height 5 7)
          (fillNewH (toRGBA refOps wImg).width (toRGBA refOps wImg).height 5 7)).pix
        ((fillOffset (fillNewW (toRGBA refOps wImg).width (toRGBA refOps wImg).height 5 7)
            5).toNat + 0)
        ((fillOffset (fillNewH (toRGBA refOps wImg).width (toRGBA refOps wImg).height 5 7)
            7).toNat + 0) :=
  ⟨by decide, by decide,
    (fill_no_padding refOps wImg 5 7 refOps_convertContract refOps_resampleContract
      (by decide) (by decide)).2.2 0 0 (by decide) (by decide)⟩

/-- Witness for the exact-dimensions theorem, at a concrete image. -/
theorem fit_fill_exact_dims_witness :
    0 < wImg.width ∧ 0 < wImg.height ∧
    (fit_image refOps wImg (128, 128) ⟨0, 0, 0, 255⟩).size = (128, 128) ∧
    (fill_image refOps wImg (128, 128)).size = (128, 128) := by
  have h := fit_fill_exact_dims refOps wImg 128 128 ⟨0, 0, 0, 255⟩
    refOps_convertContract refOps_resampleContract (by decide) (by decide)
  exact ⟨by decide, by decide, h.1, h.2⟩

/-- Witness for the letterbox theorem: a concrete canvas pixel right of the
pasted rectangle equals the background. -/
theorem fit_letterbox_witness :
    0 < opaqueImg.width ∧ 0 < opaqueImg.height ∧
    (fit_image refOps opaqueImg (2, 1) ⟨0, 0, 0, 255⟩).pix 1 0 = ⟨0, 0, 0, 255⟩ := by
  have hneg : ¬(fitOffset 2 (fitNewW 1 1 2 1) ≤ (1 : ℤ) ∧
      (1 : ℤ) < fitOffset 2 (fitNewW 1 1 2 1) + (fitNewW 1 1 2 1 : ℤ) ∧
      fitOffset 1 (fitNewH 1 1 2 1) ≤ (0 : ℤ) ∧
      (0 : ℤ) < fitOffset 1 (fitNewH 1 1 2 1) + (fitNewH 1 1 2 1 : ℤ)) := by
    rw [fitNewW_1121, fitNewH_1121]
    decide
  exact ⟨by decide, by decide,
    (fit_letterbox refOps opaqueImg 2 1 ⟨0, 0, 0, 255⟩ refOps_convertContract
      refOps_resampleContract (by decide) (by decide)).2.2.2.2.2.2 1 0 hneg⟩

/-- Witness for the dispatcher error isolation, with a failing decoder. -/
theorem process_file_error_isolated_witness :
    process_file badOps "ART/ICON0.png" [7] ⟨(128, 128), "fit"⟩ ⟨0, 0, 0, 0⟩ =
      ([7], [errorLine "ART/ICON0.png" "cannot identify image file"]) ∧
    processDirFiles badOps ⟨0, 0, 0, 0⟩ "ART" ([("a", [1])] ++ [("b", [2])]) =
      processDirFiles badOps ⟨0, 0, 0, 0⟩ "ART" [("a", [1])] ++
        processDirFiles badOps ⟨0, 0, 0, 0⟩ "ART" [("b", [2])] := by
  have h := process_file_error_isolated badOps "ART/ICON0.png" [7] ⟨(128, 128), "fit"⟩
    ⟨0, 0, 0, 0⟩ "cannot identify image file" rfl
  exact ⟨h.1, h.2 ⟨0, 0, 0, 0⟩ "ART" [("a", [1])] [("b", [2])]⟩

/-- Witness for the amended idempotence theorem, on a fully opaque image. -/
theorem idempotent_on_exact_size_witness :
    (fit_image refOps opaqueImg (opaqueImg.width, opaqueImg.height) ⟨0, 0, 0, 255⟩).pix 0 0 =
      opaqueImg.pix 0 0 ∧
    (fit_image refOps opaqueImg (opaqueImg.width, opaqueImg.height) ⟨0, 0, 0, 255⟩).size =
      opaqueImg.size ∧
    (fill_image refOps opaqueImg (opaqueImg.width, opaqueImg.height)).pix 0 0 =
      opaqueImg.pix 0 0 ∧
    (fill_image refOps opaqueImg (opaqueImg.width, opaqueImg.height)).size = opaqueImg.size := by
  have h := idempotent_on_exact_size refOps opaqueImg ⟨0, 0, 0, 255⟩
    refOps_resampleSameContract rfl (by decide) (by decide)
    (fun i j _ _ =>
      (by decide : refOps.blend ⟨10, 20, 30, 255⟩ ⟨0, 0, 0, 255⟩ = ⟨10, 20, 30, 255⟩))
  exact ⟨h.1 0 0 (by decide) (by decide), h.2.1, h.2.2.1 0 0 (by decide) (by decide), h.2.2.2⟩

/-- Witness for the 1920x1080 fill example, at a concrete image and pixel. -/
theorem fill_1920_symmetric_crop_witness :
    wImg1920.width = 1920 ∧ wImg1920.height = 1080 ∧
    (fill_image refOps wImg1920 (640, 448)).pix 0 0 =
      (refOps.resample (toRGBA refOps wImg1920) 796 448).pix (78 + 0) 0 :=
  ⟨rfl, rfl,
    (fill_1920_symmetric_crop refOps wImg1920 refOps_convertContract
      refOps_resampleContract rfl rfl).2.2.2.2.2.2.2 0 0 (by decide) (by decide)⟩

/-- Witness for the unmatched-untouched theorem, on a concrete tree. -/
theorem unmatched_untouched_witness :
    "readme.txt" ∉ walkInvoked wTree ∧
    lookupFile (walkTree refOps ⟨0, 0, 0, 0⟩ "ART" wTree) ["sub"] "readme.txt" =
      lookupFile wTree ["sub"] "readme.txt" :=
  unmatched_untouched refOps ⟨0, 0, 0, 0⟩ wTree "ART" ["sub"] "readme.txt" rfl

/-- Witness for the RGBA-mode theorem, at a concrete image. -/
theorem fit_fill_rgba_mode_witness :
    (toRGBA refOps wImg).mode = "RGBA" ∧
    (fit_image refOps wImg (128, 128) ⟨255, 255, 255, 255⟩).mode = "RGBA" ∧
    (fill_image refOps wImg (640, 448)).mode = "RGBA" := by
  have h1 := fit_fill_rgba_mode refOps wImg 128 128 ⟨255, 255, 255, 255⟩
    refOps_convertContract refOps_resampleContract
  have h2 := fit_fill_rgba_mode refOps wImg 640 448 ⟨255, 255, 255, 255⟩
    refOps_convertContract refOps_resampleContract
  exact ⟨h1.1, h1.2.1, h2.2.2⟩

end ArtResizer
